import Mathlib

/-!
Verification development for the navary memory arena allocator
(src/engine/src/navary/memory/arena.h).

The C++ allocator is shallowly embedded: machine pointers become natural
number addresses, the intrusive block list becomes an association list
from a block identity to its record, the intrusive destructor list of a
block becomes a Lean list, and the 32-bit epoch word keeps its exact bit
layout (bit 31 is the FREEZE flag, the low 31 bits hold the count).
The default upstream provider (ArenaUpstream::DefaultAlloc) is modelled
as a deterministic provider of fresh, suitably aligned address ranges;
genuine out-of-memory from the operating system is not modelled, while
the alignment validity check of DefaultAlloc is.
-/

/-- Bit 31 of the 32-bit word active_epochs is the FREEZE flag
(arena.h line 174). -/
def kFreezeBit : Nat := 2 ^ 31

/-- The low 31 bits of active_epochs hold the active epoch count
(arena.h line 175). -/
def kCountMask : Nat := 2 ^ 31 - 1

/-- Size in bytes of the ArenaBlock header on an LP64 target: the five
8-byte fields begin, cur, end, next and dtors. Plays the role of
sizeof(ArenaBlock) in the sizing arithmetic. -/
def sizeofArenaBlock : Nat := 40

/-- Size in bytes of ArenaBlock::DtorNode on an LP64 target: three
8-byte fields fn, arg and next. -/
def sizeofDtorNode : Nat := 24

/-- Alignment of ArenaBlock::DtorNode on an LP64 target. -/
def alignofDtorNode : Nat := 8

/-- One registered cleanup entry: the callback and its argument, both
modelled as opaque numeric identities. The intrusive next pointer of
ArenaBlock::DtorNode is represented by the enclosing Lean list. -/
structure DtorNode where
  fn : Nat
  arg : Nat
  deriving Repr, DecidableEq

/-- One backing block. The C++ fields begin, cur, end are byte pointers,
modelled as addresses; the intrusive next pointer is represented by the
position of the block in the arena list; dtors is the cleanup list with
the most recently registered entry first. -/
structure ArenaBlock where
  begin_ : Nat
  cur : Nat
  end_ : Nat
  dtors : List DtorNode
  deriving Repr, DecidableEq

/-- Round p up to the next multiple of a. TryBump_ computes
(cur + (align - 1)) AND (NOT (align - 1)); for a power of two alignment
that bit arithmetic rounds up to the next multiple of the alignment,
which is what this function computes. -/
def alignUp (p a : Nat) : Nat := (p + a - 1) / a * a

/-- Arena::TryBump_ (arena.h lines 743 to 754): align the cursor, check
that the request fits before the end of the block, and advance the
cursor only in that case. The returned flag is the C++ return value and
the returned block is the (possibly updated) pointee. -/
def TryBump (b : ArenaBlock) (bytes align : Nat) : Bool × ArenaBlock :=
  let aligned := alignUp b.cur align
  let next := aligned + bytes
  if next ≤ b.end_ then (true, { b with cur := next }) else (false, b)

/-- ArenaWaitPolicy (arena.h lines 262 to 266) with its default values. -/
structure ArenaWaitPolicy where
  spin_iters : Nat := 2000
  yield_iters : Nat := 20000
  sleep_ms : Nat := 1
  deriving Repr, DecidableEq

/-- ArenaOptions (arena.h lines 268 to 275). The default alignment is
alignof(std::max_align_t), which is 16 on the x86-64 targets the engine
builds for. The upstream and telemetry members are modelled separately. -/
structure ArenaOptions where
  initial_block_bytes : Nat := 64 * 1024
  max_block_bytes : Nat := 1024 * 1024
  alignment : Nat := 16
  wait_policy : ArenaWaitPolicy := {}
  deriving Repr, DecidableEq

/-- The default constructed ArenaOptions. -/
def defaultOptions : ArenaOptions := {}

/-- The mutable state of one Arena: the block list (head of the C++
intrusive list first) keyed by block identity, the id supply for new
blocks, total_bytes_, the active_epochs_ word, the model upstream bump
address, the log of (pointer, size) pairs handed back to the upstream
deallocate hook, and the log of cleanup callbacks that have been
invoked, in invocation order. -/
structure ArenaState where
  blocks : List (Nat × ArenaBlock)
  nextId : Nat
  totalBytes : Nat
  epoch : Nat
  upNext : Nat
  freedLog : List (Nat × Nat)
  firedLog : List DtorNode
  deriving Repr, DecidableEq

/-- Walk of the intrusive block list comparing block identities; this is
the pointer comparison loop of the still-linked validation in
Arena::Allocate. -/
def lookupBlock : List (Nat × ArenaBlock) → Nat → Option ArenaBlock
  | [], _ => none
  | p :: rest, id => if p.1 = id then some p.2 else lookupBlock rest id

/-- In-place mutation of the block a cached pointer designates: every
entry carrying the identity is replaced by the updated record. -/
def updateBlock : List (Nat × ArenaBlock) → Nat → ArenaBlock → List (Nat × ArenaBlock)
  | [], _, _ => []
  | p :: rest, id, b' =>
      (if p.1 = id then (p.1, b') else p) :: updateBlock rest id b'

/-- Identities of the blocks currently linked in the list. -/
def keysOf (blocks : List (Nat × ArenaBlock)) : List Nat := blocks.map Prod.fst

/-- Total number of registered, not yet executed cleanup entries over
the whole block list. -/
def dtorCount (s : ArenaState) : Nat :=
  (s.blocks.map (fun p => p.2.dtors.length)).sum

/-- Alignment validity check of ArenaUpstream::DefaultAlloc (arena.h
lines 206 to 209): the alignment must be a power of two and at least
alignof(void*), which is 8 on LP64. -/
def validAlign (a : Nat) : Bool := decide (8 ≤ a) && decide (Nat.land a (a - 1) = 0)

theorem alignUp_le_add (p a : Nat) : alignUp p a ≤ p + a - 1 := by
  unfold alignUp
  exact Nat.div_mul_le_self _ _

theorem le_alignUp (p a : Nat) (ha : 0 < a) : p ≤ alignUp p a := by
  unfold alignUp
  have hdm := Nat.div_add_mod (p + a - 1) a
  rw [Nat.mul_comm] at hdm
  have hlt : (p + a - 1) % a < a := Nat.mod_lt _ ha
  omega

theorem alignUp_mul (q a : Nat) (ha : 0 < a) : alignUp (q * a) a = q * a := by
  unfold alignUp
  have h1 : q * a + a - 1 = (a - 1) + q * a := by omega
  rw [h1, Nat.add_mul_div_right _ _ ha, Nat.div_eq_of_lt (by omega), Nat.zero_add]

theorem alignUp_idem (p a : Nat) (ha : 0 < a) : alignUp (alignUp p a) a = alignUp p a := by
  show alignUp ((p + a - 1) / a * a) a = (p + a - 1) / a * a
  exact alignUp_mul _ a ha

theorem lookupBlock_isSome_mem {blocks : List (Nat × ArenaBlock)} {id : Nat}
    (h : (lookupBlock blocks id).isSome) : id ∈ keysOf blocks := by
  induction blocks with
  | nil => simp [lookupBlock] at h
  | cons p rest ih =>
      unfold lookupBlock at h
      by_cases hp : p.1 = id
      · simp [keysOf, hp.symm]
      · simp only [hp, if_false] at h
        simp [keysOf] at ih ⊢
        right
        exact (by simpa [keysOf] using ih h)

theorem lookupBlock_eq_none {blocks : List (Nat × ArenaBlock)} {id : Nat}
    (h : id ∉ keysOf blocks) : lookupBlock blocks id = none := by
  induction blocks with
  | nil => rfl
  | cons p rest ih =>
      simp only [keysOf, List.map_cons, List.mem_cons] at h
      push_neg at h
      unfold lookupBlock
      rw [if_neg (by exact fun hc => h.1 hc.symm)]
      exact ih (by simpa [keysOf] using h.2)

theorem lookupBlock_mem {blocks : List (Nat × ArenaBlock)} {id : Nat} {b : ArenaBlock}
    (h : lookupBlock blocks id = some b) : (id, b) ∈ blocks := by
  induction blocks with
  | nil => simp [lookupBlock] at h
  | cons p rest ih =>
      unfold lookupBlock at h
      by_cases hp : p.1 = id
      · rw [if_pos hp] at h
        have hb : b = p.2 := by injection h with h2; exact h2.symm
        subst hb
        rw [← hp]
        exact List.mem_cons_self _ _
      · rw [if_neg hp] at h
        exact List.mem_cons_of_mem _ (ih h)

theorem keysOf_updateBlock (blocks : List (Nat × ArenaBlock)) (id : Nat) (b' : ArenaBlock) :
    keysOf (updateBlock blocks id b') = keysOf blocks := by
  induction blocks with
  | nil => rfl
  | cons p rest ih =>
      unfold updateBlock
      simp only [keysOf, List.map_cons] at ih ⊢
      by_cases hp : p.1 = id
      · rw [if_pos hp, ih]
      · rw [if_neg hp, ih]

theorem updateBlock_not_mem {blocks : List (Nat × ArenaBlock)} {id : Nat} (b' : ArenaBlock)
    (h : id ∉ keysOf blocks) : updateBlock blocks id b' = blocks := by
  induction blocks with
  | nil => rfl
  | cons p rest ih =>
      simp only [keysOf, List.map_cons, List.mem_cons] at h
      push_neg at h
      unfold updateBlock
      rw [if_neg (by exact fun hc => h.1 hc.symm)]
      rw [ih (by simpa [keysOf] using h.2)]

theorem lookupBlock_updateBlock_self {blocks : List (Nat × ArenaBlock)} {id : Nat}
    {b : ArenaBlock} (b' : ArenaBlock) (h : lookupBlock blocks id = some b) :
    lookupBlock (updateBlock blocks id b') id = some b' := by
  induction blocks with
  | nil => simp [lookupBlock] at h
  | cons p rest ih =>
      unfold lookupBlock at h
      unfold updateBlock
      by_cases hp : p.1 = id
      · simp [lookupBlock, hp]
      · rw [if_neg hp] at h ⊢
        unfold lookupBlock
        rw [if_neg hp]
        exact ih h

theorem mem_updateBlock {blocks : List (Nat × ArenaBlock)} {id : Nat} {b' : ArenaBlock}
    {q : Nat × ArenaBlock} (h : q ∈ updateBlock blocks id b') :
    q ∈ blocks ∨ q = (id, b') := by
  induction blocks with
  | nil => simp [updateBlock] at h
  | cons p rest ih =>
      unfold updateBlock at h
      rcases List.mem_cons.mp h with h1 | h1
      · by_cases hp : p.1 = id
        · rw [if_pos hp] at h1
          right
          rw [h1, hp]
        · rw [if_neg hp] at h1
          left
          exact List.mem_cons.mpr (Or.inl h1)
      · rcases ih h1 with h2 | h2
        · exact Or.inl (List.mem_cons_of_mem _ h2)
        · exact Or.inr h2

theorem dtorLens_updateBlock {blocks : List (Nat × ArenaBlock)} {id : Nat}
    {b b' : ArenaBlock} (hnd : (keysOf blocks).Nodup)
    (h : lookupBlock blocks id = some b) (hlen : b'.dtors.length = b.dtors.length) :
    (updateBlock blocks id b').map (fun p => p.2.dtors.length)
      = blocks.map (fun p => p.2.dtors.length) := by
  induction blocks with
  | nil => rfl
  | cons p rest ih =>
      simp only [keysOf, List.map_cons, List.nodup_cons] at hnd
      unfold lookupBlock at h
      unfold updateBlock
      by_cases hp : p.1 = id
      · rw [if_pos hp] at h ⊢
        cases h
        have hrest : updateBlock rest id b' = rest := by
          refine updateBlock_not_mem b' ?_
          rw [← hp]
          exact fun hc => hnd.1 (by simpa [keysOf] using hc)
        rw [hrest]
        simp [hlen]
      · rw [if_neg hp] at h ⊢
        simp only [List.map_cons]
        rw [ih hnd.2 h]

theorem dtorLens_updateBlock_prepend {blocks : List (Nat × ArenaBlock)} {id : Nat}
    {b : ArenaBlock} (d : DtorNode) (hnd : (keysOf blocks).Nodup)
    (h : lookupBlock blocks id = some b) :
    ((updateBlock blocks id { b with dtors := d :: b.dtors }).map
        (fun p => p.2.dtors.length)).sum
      = (blocks.map (fun p => p.2.dtors.length)).sum + 1 := by
  induction blocks with
  | nil => simp [lookupBlock] at h
  | cons p rest ih =>
      simp only [keysOf, List.map_cons, List.nodup_cons] at hnd
      unfold lookupBlock at h
      unfold updateBlock
      by_cases hp : p.1 = id
      · rw [if_pos hp] at h ⊢
        cases h
        have hrest : updateBlock rest id { p.2 with dtors := d :: p.2.dtors } = rest := by
          refine updateBlock_not_mem _ ?_
          rw [← hp]
          exact fun hc => hnd.1 (by simpa [keysOf] using hc)
        rw [hrest]
        simp
        omega
      · rw [if_neg hp] at h ⊢
        simp only [List.map_cons, List.sum_cons]
        rw [ih hnd.2 h]
        omega

/-- Arena::NextBlockSize_ (arena.h lines 778 to 790): start from
initial_block_bytes, raise to need plus alignment plus the block header
size when that is larger, then clamp to max_block_bytes. Note that the
clamp in the source is unconditional. -/
def NextBlockSize (opts : ArenaOptions) (need align : Nat) : Nat :=
  let body := opts.initial_block_bytes
  let min_needed := need + align + sizeofArenaBlock
  let body := if min_needed > body then min_needed else body
  if body > opts.max_block_bytes then opts.max_block_bytes else body

/-- Arena::RefillLane_ (arena.h lines 756 to 776): compute the wanted
size, obtain raw aligned memory from the upstream provider, construct
the block header at the start of the raw range with the body after it,
link the block at the head of the list, grow total_bytes_, and perform
the initial zero byte TryBump_ that aligns the fresh cursor. The model
upstream hands out fresh address ranges aligned as requested and fails
exactly when DefaultAlloc rejects the configured alignment. -/
def RefillLane (opts : ArenaOptions) (s : ArenaState) (need align : Nat) :
    Option Nat × ArenaState :=
  let want := NextBlockSize opts need align
  if validAlign opts.alignment then
    let raw := alignUp s.upNext opts.alignment
    let blk0 : ArenaBlock :=
      { begin_ := raw + sizeofArenaBlock, cur := raw + sizeofArenaBlock,
        end_ := raw + sizeofArenaBlock + (want - sizeofArenaBlock), dtors := [] }
    let blk := (TryBump blk0 0 align).2
    (some s.nextId,
      { s with blocks := (s.nextId, blk) :: s.blocks,
               nextId := s.nextId + 1,
               totalBytes := s.totalBytes + want,
               upNext := raw + want })
  else (none, s)

/-- The alignment Arena::Allocate actually uses (arena.h lines 343 to
345): the requested alignment raised to the configured minimum. -/
def effectiveAlign (opts : ArenaOptions) (alignment : Nat) : Nat :=
  if alignment < opts.alignment then opts.alignment else alignment

/-- The result of one Arena::Allocate call: the returned pointer (none
for the C++ nullptr), the arena state afterwards, and the thread lane
cached block afterwards. -/
structure AllocResult where
  ptr : Option Nat
  s : ArenaState
  lane : Option Nat
  deriving Repr, DecidableEq

/-- Slow path of Arena::Allocate (arena.h lines 369 to 377): refill the
lane, give up with nullptr when the upstream fails, otherwise attempt
the bump on the new block with the return value discarded, exactly as
the source does, and return lane.block.cur minus size. -/
def allocRefillPath (opts : ArenaOptions) (s : ArenaState) (size araised : Nat) :
    AllocResult :=
  match RefillLane opts s size araised with
  | (none, s') => { ptr := none, s := s', lane := none }
  | (some rid, s') =>
    match lookupBlock s'.blocks rid with
    | none =>
        -- unreachable: the refilled block is linked at the head of the list
        { ptr := none, s := s', lane := some rid }
    | some b =>
      let r := TryBump b size araised
      { ptr := some (r.2.cur - size),
        s := { s' with blocks := updateBlock s'.blocks rid r.2 },
        lane := some rid }

/-- Arena::Allocate (arena.h lines 341 to 383): raise the alignment to
the configured minimum, validate the cached lane block against the
current list (dropping a stale pointer), bump the cached block or
refill on failure, and return the cursor minus the size. The call is
bracketed by EnterEpoch_ and LeaveEpoch_ in the source; their net
effect on the active_epochs_ word is one increment followed by one
decrement, which restores the word on every return path, and their
blocking interaction with the FREEZE flag is modelled by epochStep.
The pointer subtraction is on Nat; every run examined by a theorem
keeps the cursor at or above the subtracted size, matching the C++
address arithmetic. -/
def Allocate : ArenaOptions → ArenaState → Option Nat → Nat → Nat → AllocResult
  | opts, s, none, size, alignment =>
      allocRefillPath opts s size (effectiveAlign opts alignment)
  | opts, s, some id, size, alignment =>
    match lookupBlock s.blocks id with
    | none => allocRefillPath opts s size (effectiveAlign opts alignment)
    | some b =>
      let r := TryBump b size (effectiveAlign opts alignment)
      if r.1 then
        { ptr := some (r.2.cur - size),
          s := { s with blocks := updateBlock s.blocks id r.2 },
          lane := some id }
      else allocRefillPath opts s size (effectiveAlign opts alignment)

/-- Last statements of Arena::Own (arena.h lines 407 to 409): construct
the DtorNode with the deleter, the pointer and the current head of the
cleanup list of the block the lane points at, and store it as the new
head. When the lane has no block the source would dereference a null
pointer; with the modelled upstream that branch is never taken. -/
def ownRegister (s : ArenaState) : Option Nat → Nat → Nat → ArenaState × Option Nat
  | some id, ptr, deleter =>
    (match lookupBlock s.blocks id with
     | some b =>
        { s with blocks :=
            updateBlock s.blocks id { b with dtors := ⟨deleter, ptr⟩ :: b.dtors } }
     | none => s,
     some id)
  | none, _, _ => (s, none)

/-- First step of Arena::Own (arena.h lines 400 to 403): when the lane
has no block, point it at a fresh block sized for a DtorNode. -/
def ownLaneInit (opts : ArenaOptions) (s : ArenaState) : Option Nat → Option Nat × ArenaState
  | none => RefillLane opts s sizeofDtorNode alignofDtorNode
  | some id => (some id, s)

/-- Arena::Own (arena.h lines 394 to 410): ignore a null pointer or
deleter, refill the lane when it has no block, allocate a DtorNode from
the arena itself, and prepend the (deleter, pointer) pair to the
cleanup list of the block the lane points at after that allocation. -/
def Own (opts : ArenaOptions) (s : ArenaState) (lane : Option Nat)
    (ptr deleter : Nat) : ArenaState × Option Nat :=
  if ptr = 0 ∨ deleter = 0 then (s, lane)
  else
    let ls := ownLaneInit opts s lane
    let r := Allocate opts ls.2 ls.1 sizeofDtorNode alignofDtorNode
    ownRegister r.s r.lane ptr deleter

/-- Arena::Create (arena.h lines 385 to 391) followed by
RegisterDtorIfNeeded_ (arena.h lines 902 to 909): allocate storage for
the object, construct it in place, and register its destructor through
Own exactly when the type is not trivially destructible. The size and
alignment of the C++ type and the identity of its destructor callback
are parameters. -/
def Create (opts : ArenaOptions) (s : ArenaState) (lane : Option Nat)
    (sizeofT alignofT : Nat) (nontrivialDtor : Bool) (dtorFn : Nat) : AllocResult :=
  let r := Allocate opts s lane sizeofT alignofT
  if nontrivialDtor then
    match r.ptr with
    | some p =>
      let os := Own opts r.s r.lane p dtorFn
      { ptr := r.ptr, s := os.1, lane := os.2 }
    | none => r
  else r

/-- Arena::MakeSpan (arena.h lines 669 to 718): allocate the element
array, and for a non trivially destructible element type allocate the
Sweep header (8 bytes on LP64) and register it with Own, then allocate
the SweepPtr header (16 bytes on LP64) holding the stored pair of count
and array pointer and register it with Own as well. The two callback
identities are parameters; the element constructions have no effect on
the allocator state. -/
def MakeSpan (opts : ArenaOptions) (s : ArenaState) (lane : Option Nat)
    (sizeofT alignofT n : Nat) (nontrivialDtor : Bool)
    (sweepRunFn sweepPtrRunFn : Nat) : AllocResult :=
  let r := Allocate opts s lane (sizeofT * n) alignofT
  if nontrivialDtor then
    let r1 := Allocate opts r.s r.lane 8 8
    let os1 := Own opts r1.s r1.lane (r1.ptr.getD 0) sweepRunFn
    let r2 := Allocate opts os1.1 os1.2 16 8
    let os2 := Own opts r2.s r2.lane (r2.ptr.getD 0) sweepPtrRunFn
    { ptr := r.ptr, s := os2.1, lane := os2.2 }
  else r

/-- Arena::RunAllDtors_ (arena.h lines 799 to 819): collect the cleanup
list of every block under the lock, clearing each one, then invoke the
collected callbacks outside the lock, list by list in block order and
within one list most recently registered first. Invocation is recorded
in firedLog. -/
def RunAllDtors (s : ArenaState) : ArenaState :=
  { s with blocks := s.blocks.map (fun p => (p.1, { p.2 with dtors := [] })),
           firedLog := s.firedLog ++ (s.blocks.map (fun p => p.2.dtors)).flatten }

/-- Arena::Reset (arena.h lines 417 to 433): run all registered
cleanups, then rewind every block cursor to its begin and clear the
cleanup lists, keeping the blocks and total_bytes_ unchanged. The
debug precondition AssertNoEpoch_ is stated as a hypothesis of the
theorems that use Reset. -/
def Reset (s : ArenaState) : ArenaState :=
  let s' := RunAllDtors s
  { s' with blocks := s'.blocks.map (fun p => (p.1, { p.2 with cur := p.2.begin_, dtors := [] })) }

/-- Arena::Purge (arena.h lines 435 to 448): run all registered
cleanups, hand every block back to the upstream deallocate hook (the
raw pointer starts one header before begin and the raw size includes
the header), empty the list and zero total_bytes_. -/
def Purge (s : ArenaState) : ArenaState :=
  let s' := RunAllDtors s
  { s' with blocks := [],
            totalBytes := 0,
            freedLog := s'.freedLog ++ s'.blocks.map (fun p =>
              (p.2.begin_ - sizeofArenaBlock,
               p.2.end_ - p.2.begin_ + sizeofArenaBlock)) }

/-- Count field of the active_epochs_ word: the low 31 bits, that is
the word masked with kCountMask. -/
def epochCount (w : Nat) : Nat := w % 2 ^ 31

/-- FREEZE flag of the active_epochs_ word; the word is a 32-bit value,
so bit 31 is set exactly when the word is at least 2 to the 31. -/
def epochFrozen (w : Nat) : Bool := decide (2 ^ 31 ≤ w)

/-- The word with the FREEZE flag set, that is the word or-ed with
kFreezeBit, for a 32-bit word. -/
def setFreeze (w : Nat) : Nat := if 2 ^ 31 ≤ w then w else w + 2 ^ 31

/-- The word with the FREEZE flag cleared, that is the word masked with
kCountMask. -/
def clearFreeze (w : Nat) : Nat := epochCount w

/-- One fetch_sub of 1 on the 32-bit active_epochs_ word, with the
wraparound of unsigned arithmetic. -/
def sub1mod32 (w : Nat) : Nat := (w + (2 ^ 32 - 1)) % 2 ^ 32

/-- The four primitive updates of the active_epochs_ word: EnterEpoch_
(arena.h lines 826 to 844), LeaveEpoch_ (lines 846 to 849), and the two
compare and swap loops of ArenaResetSafely that set and clear the
FREEZE flag (lines 555 to 581). -/
inductive EpochOp where
  | enter
  | leave
  | beginFreeze
  | endFreeze
  deriving Repr, DecidableEq

/-- Effect of one epoch operation on the word. EnterEpoch_ observes the
FREEZE flag and, while it is set, yields and retries without updating
the word, which the model renders as none; otherwise its compare and
swap publishes the word plus one. LeaveEpoch_ is an unconditional
fetch_sub of one and is never gated on the FREEZE flag. -/
def epochStep : EpochOp → Nat → Option Nat
  | EpochOp.enter, w => if epochFrozen w then none else some (w + 1)
  | EpochOp.leave, w => some (sub1mod32 w)
  | EpochOp.beginFreeze, w => some (setFreeze w)
  | EpochOp.endFreeze, w => some (clearFreeze w)

/-- Environment of one WaitForEpochZero call. reads gives the value of
the k-th atomic load of active_epochs_ performed by the wait (other
threads may change the word between loads); expired gives the result of
the k-th comparison of steady_clock::now() against the deadline. -/
structure WaitEnv where
  reads : Nat → Nat
  expired : Nat → Bool

/-- Phases 1 and 2 of Arena::WaitForEpochZero (arena.h lines 483 to
522): a bounded loop that first loads the count, returns true when it
is zero, and only then compares the clock against the deadline,
returning false when it has passed. The spin and yield phases have the
same observable structure; the cooperative yield between iterations has
no effect on the modelled state. The second and third components track
how many loads and clock comparisons have been consumed. -/
def waitBoundedPhase (env : WaitEnv) : Nat → Nat → Nat → Option Bool × Nat × Nat
  | 0, ri, ci => (none, ri, ci)
  | Nat.succ k, ri, ci =>
    if epochCount (env.reads ri) = 0 then (some true, ri + 1, ci)
    else if env.expired ci then (some false, ri + 1, ci + 1)
    else waitBoundedPhase env k (ri + 1) (ci + 1)

/-- Phase 3 of Arena::WaitForEpochZero (arena.h lines 524 to 542): a
while loop that checks the deadline first, then loads the count and
sleeps. The fuel bounds how many sleep iterations the model unrolls; a
run whose deadline passes within the horizon never exhausts it. -/
def waitSleepPhase (env : WaitEnv) : Nat → Nat → Nat → Bool
  | 0, _, _ => false
  | Nat.succ k, ri, ci =>
    if env.expired ci then false
    else if epochCount (env.reads ri) = 0 then true
    else waitSleepPhase env k (ri + 1) (ci + 1)

/-- Arena::WaitForEpochZero (arena.h lines 472 to 543): the spin phase,
then the yield phase, then the sleep phase, threading the consumed read
and clock indices through. Telemetry hooks do not affect the result and
are not modelled. -/
def WaitForEpochZero (pol : ArenaWaitPolicy) (env : WaitEnv) (fuel : Nat) : Bool :=
  match waitBoundedPhase env pol.spin_iters 0 0 with
  | (some r, _, _) => r
  | (none, ri, ci) =>
    match waitBoundedPhase env pol.yield_iters ri ci with
    | (some r, _, _) => r
    | (none, ri', ci') => waitSleepPhase env fuel ri' ci'

/-- Outcome of one ArenaResetSafely call: either the function returns
(with its boolean result and the arena state at return), or the debug
epoch check calls std::abort and control never returns to the caller. -/
inductive ResetOutcome where
  | ok (result : Bool) (s : ArenaState)
  | aborted (s : ArenaState)
  deriving Repr, DecidableEq

/-- Arena::ArenaResetSafely (arena.h lines 553 to 600), single threaded:
set the FREEZE flag with the first compare and swap loop, wait for the
count to drain (the loads all observe the frozen word, as no other
thread runs), call Reset exactly when the wait succeeded, clear the
FREEZE flag with the second compare and swap loop, and return the wait
flag — except that when NAVARY_ARENA_EPOCH_DEBUG is 1 (NDEBUG not
defined) and the count is still nonzero after a timeout, the function
prints a diagnostic and calls std::abort (arena.h lines 586 to 597).
debugCheck is that preprocessor flag. -/
def ArenaResetSafely (debugCheck : Bool) (opts : ArenaOptions) (expired : Nat → Bool)
    (fuel : Nat) (s : ArenaState) : ResetOutcome :=
  let w1 := setFreeze s.epoch
  let s1 := { s with epoch := w1 }
  let env : WaitEnv := { reads := fun _ => w1, expired := expired }
  let ok := WaitForEpochZero opts.wait_policy env fuel
  let s2 := if ok then Reset s1 else s1
  let s3 := { s2 with epoch := clearFreeze s2.epoch }
  if ok then ResetOutcome.ok true s3
  else if debugCheck && !(epochCount s3.epoch == 0) then ResetOutcome.aborted s3
  else ResetOutcome.ok false s3

/-- The thread local lane slot (arena.h lines 725 to 737): the arena
the lane belongs to and the cached block. In the world model a block is
identified by the pair of the arena that created it and the block id
inside that arena, which mirrors the global uniqueness of the C++ block
addresses. -/
structure ArenaLaneTLS where
  owner : Option Nat
  block : Option (Nat × Nat)
  deriving Repr, DecidableEq

/-- Arena::GetLane_ (arena.h lines 730 to 737): when the stored owner
differs from the arena in use, the slot is retargeted and the cached
block cleared before use. -/
def GetLane (self : Nat) (tls : ArenaLaneTLS) : ArenaLaneTLS :=
  if tls.owner = some self then tls else { owner := some self, block := none }

/-- A world of several Arena instances sharing one thread: each arena
identity maps to its state, and the single thread local slot is shared
by all of them. -/
structure World where
  arenas : List (Nat × ArenaState)
  tls : ArenaLaneTLS

/-- Association list lookup for the arenas of a world. -/
def lookupArena : List (Nat × ArenaState) → Nat → Option ArenaState
  | [], _ => none
  | p :: rest, id => if p.1 = id then some p.2 else lookupArena rest id

/-- Association list update for the arenas of a world. -/
def updateArena : List (Nat × ArenaState) → Nat → ArenaState → List (Nat × ArenaState)
  | [], _, _ => []
  | p :: rest, id, a' =>
      (if p.1 = id then (p.1, a') else p) :: updateArena rest id a'

/-- Translation of the cached block pointer into the view of the arena
in use: the still-linked walk of Arena::Allocate compares the cached
pointer against the blocks of this arena list, and a block object
created by a different arena is never one of them, so only a cached
pair carrying this arena identity can be found by that walk. -/
def laneView (aid : Nat) : Option (Nat × Nat) → Option Nat
  | some ab => if ab.1 = aid then some ab.2 else none
  | none => none

/-- One Arena::Allocate call issued against arena aid of the world: the
lane slot is resolved with GetLane_, the cached block pointer is
translated into the view of this arena, Allocate runs on the arena
state, and the slot afterwards caches the block Allocate used, a block
of this arena. -/
def WAllocate (opts : ArenaOptions) (w : World) (aid size align : Nat) : World :=
  match lookupArena w.arenas aid with
  | none => w
  | some ast =>
    let r := Allocate opts ast (laneView aid (GetLane aid w.tls).block) size align
    { arenas := updateArena w.arenas aid r.s,
      tls := { owner := some aid, block := r.lane.map (fun bid => (aid, bid)) } }

/-- One Arena::Reset call issued against arena aid of the world; the
thread local slot is not touched. -/
def WReset (w : World) (aid : Nat) : World :=
  match lookupArena w.arenas aid with
  | none => w
  | some ast => { w with arenas := updateArena w.arenas aid (Reset ast) }

/-- One Arena::Purge call issued against arena aid of the world; the
thread local slot is not touched. -/
def WPurge (w : World) (aid : Nat) : World :=
  match lookupArena w.arenas aid with
  | none => w
  | some ast => { w with arenas := updateArena w.arenas aid (Purge ast) }

/-- The operations a single thread may interleave across several Arena
instances. -/
inductive WOp where
  | alloc (aid size align : Nat)
  | reset (aid : Nat)
  | purge (aid : Nat)

/-- Effect of one world operation. -/
def wStep (opts : ArenaOptions) (w : World) : WOp → World
  | WOp.alloc aid size align => WAllocate opts w aid size align
  | WOp.reset aid => WReset w aid
  | WOp.purge aid => WPurge w aid

/-- A run of world operations from a starting world. -/
def wRun (opts : ArenaOptions) (w : World) (ops : List WOp) : World :=
  ops.foldl (wStep opts) w

/-- A freshly constructed Arena (arena.h lines 330 to 331): no blocks,
no reserved bytes, count zero, and the model upstream starting at the
given base address. -/
def initArena (base : Nat) : ArenaState :=
  { blocks := [], nextId := 0, totalBytes := 0, epoch := 0, upNext := base,
    freedLog := [], firedLog := [] }

/-- A world of freshly constructed arenas, one per identity in the
list, and a thread that has not used any of them yet. -/
def initWorld (aids : List Nat) (base : Nat) : World :=
  { arenas := aids.map (fun a => (a, initArena base)),
    tls := { owner := none, block := none } }

/-- A block satisfying the cursor invariants of the specification:
positive base address, and begin at most cur at most end. -/
def WFblock (b : ArenaBlock) : Prop :=
  0 < b.begin_ ∧ b.begin_ ≤ b.cur ∧ b.cur ≤ b.end_

/-- Well-formedness of an arena state: block identities are distinct
and below the id supply, and every block satisfies the cursor
invariants. -/
structure WF (s : ArenaState) : Prop where
  nodup : (keysOf s.blocks).Nodup
  fresh : ∀ p ∈ s.blocks, p.1 < s.nextId
  ranges : ∀ p ∈ s.blocks, WFblock p.2

theorem WF_epoch {s : ArenaState} (h : WF s) (e : Nat) : WF { s with epoch := e } :=
  ⟨h.nodup, h.fresh, h.ranges⟩

theorem validAlign_le {a : Nat} (h : validAlign a = true) : 8 ≤ a := by
  simp only [validAlign, Bool.and_eq_true, decide_eq_true_eq] at h
  exact h.1

theorem effectiveAlign_pos (opts : ArenaOptions) (alignment : Nat)
    (hva : validAlign opts.alignment = true) : 0 < effectiveAlign opts alignment := by
  unfold effectiveAlign
  have := validAlign_le hva
  split <;> omega

theorem effectiveAlign_ge (opts : ArenaOptions) (alignment : Nat) :
    opts.alignment ≤ effectiveAlign opts alignment := by
  unfold effectiveAlign
  split <;> omega

theorem tryBump_dtors (b : ArenaBlock) (bytes align : Nat) :
    ((TryBump b bytes align).2).dtors = b.dtors := by
  simp only [TryBump]
  split <;> rfl

theorem tryBump_begin (b : ArenaBlock) (bytes align : Nat) :
    ((TryBump b bytes align).2).begin_ = b.begin_ := by
  simp only [TryBump]
  split <;> rfl

theorem tryBump_end (b : ArenaBlock) (bytes align : Nat) :
    ((TryBump b bytes align).2).end_ = b.end_ := by
  simp only [TryBump]
  split <;> rfl

theorem tryBump_pos (b : ArenaBlock) (bytes align : Nat)
    (h : alignUp b.cur align + bytes ≤ b.end_) :
    TryBump b bytes align = (true, { b with cur := alignUp b.cur align + bytes }) := by
  simp only [TryBump]
  rw [if_pos h]

theorem tryBump_neg (b : ArenaBlock) (bytes align : Nat)
    (h : ¬ alignUp b.cur align + bytes ≤ b.end_) :
    TryBump b bytes align = (false, b) := by
  simp only [TryBump]
  rw [if_neg h]

theorem tryBump_cur_of_true (b : ArenaBlock) (bytes align : Nat)
    (h : (TryBump b bytes align).1 = true) :
    ((TryBump b bytes align).2).cur = alignUp b.cur align + bytes := by
  by_cases hc : alignUp b.cur align + bytes ≤ b.end_
  · rw [tryBump_pos b bytes align hc]
  · rw [tryBump_neg b bytes align hc] at h
    simp at h

theorem tryBump_cur_ge (b : ArenaBlock) (bytes align : Nat) (ha : 0 < align) :
    b.cur ≤ ((TryBump b bytes align).2).cur := by
  by_cases hc : alignUp b.cur align + bytes ≤ b.end_
  · rw [tryBump_pos b bytes align hc]
    have := le_alignUp b.cur align ha
    simp only
    omega
  · rw [tryBump_neg b bytes align hc]

theorem tryBump_wfblock (b : ArenaBlock) (bytes align : Nat) (ha : 0 < align)
    (h : WFblock b) : WFblock ((TryBump b bytes align).2) := by
  by_cases hc : alignUp b.cur align + bytes ≤ b.end_
  · rw [tryBump_pos b bytes align hc]
    refine ⟨h.1, ?_, ?_⟩
    · have := le_alignUp b.cur align ha
      have := h.2.1
      simp only
      omega
    · exact hc
  · rw [tryBump_neg b bytes align hc]
    exact h

theorem nextBlockSize_ge (opts : ArenaOptions) (need align : Nat)
    (h : need + align + sizeofArenaBlock ≤ opts.max_block_bytes) :
    need + align + sizeofArenaBlock ≤ NextBlockSize opts need align := by
  simp only [NextBlockSize]
  split_ifs <;> omega

theorem refillLane_spec (opts : ArenaOptions) (s : ArenaState) (need align : Nat)
    (hva : validAlign opts.alignment = true) (ha : 0 < align) (hwf : WF s) :
    ∃ blk s',
      RefillLane opts s need align = (some s.nextId, s')
      ∧ s'.blocks = (s.nextId, blk) :: s.blocks
      ∧ s'.nextId = s.nextId + 1
      ∧ s'.firedLog = s.firedLog
      ∧ s'.epoch = s.epoch
      ∧ blk.dtors = []
      ∧ WFblock blk
      ∧ (need + align + sizeofArenaBlock ≤ opts.max_block_bytes →
          alignUp blk.cur align + need ≤ blk.end_) := by
  unfold RefillLane
  rw [hva]
  simp only [if_true]
  refine ⟨_, _, rfl, rfl, rfl, rfl, rfl, ?_, ?_, ?_⟩
  · rw [tryBump_dtors]
  · refine tryBump_wfblock _ 0 align ha ⟨?_, Nat.le_refl _, Nat.le_add_right _ _⟩
    simp only [sizeofArenaBlock]
    omega
  · intro hm
    have hwant := nextBlockSize_ge opts need align hm
    set want := NextBlockSize opts need align with hwdef
    set raw := alignUp s.upNext opts.alignment with hrdef
    have hz : alignUp (raw + sizeofArenaBlock) align + 0
        ≤ raw + sizeofArenaBlock + (want - sizeofArenaBlock) := by
      have h1 := alignUp_le_add (raw + sizeofArenaBlock) align
      omega
    rw [tryBump_pos _ 0 align hz]
    simp only [Nat.add_zero]
    rw [alignUp_idem _ align ha]
    have h1 := alignUp_le_add (raw + sizeofArenaBlock) align
    omega

theorem nextId_not_key {s : ArenaState} (hwf : WF s) : s.nextId ∉ keysOf s.blocks := by
  intro hmem
  simp only [keysOf] at hmem
  rcases List.mem_map.mp hmem with ⟨p, hp, hfst⟩
  have := hwf.fresh p hp
  omega


theorem allocRefillPath_spec (opts : ArenaOptions) (s : ArenaState) (size araised : Nat)
    (hva : validAlign opts.alignment = true) (ha : 0 < araised) (hwf : WF s) :
    ∃ b,
      (allocRefillPath opts s size araised).lane = some s.nextId
      ∧ lookupBlock (allocRefillPath opts s size araised).s.blocks s.nextId = some b
      ∧ WF (allocRefillPath opts s size araised).s
      ∧ dtorCount (allocRefillPath opts s size araised).s = dtorCount s
      ∧ (allocRefillPath opts s size araised).s.firedLog = s.firedLog
      ∧ (allocRefillPath opts s size araised).s.nextId = s.nextId + 1
      ∧ (size + araised + sizeofArenaBlock ≤ opts.max_block_bytes →
          ∃ p, (allocRefillPath opts s size araised).ptr = some p ∧ 0 < p) := by
  obtain ⟨blk, s', heq, hblocks, hnid, hflog, _heps, hdt, hwfb, hfit⟩ :=
    refillLane_spec opts s size araised hva ha hwf
  have hnotmem : s.nextId ∉ keysOf s.blocks := nextId_not_key hwf
  have hlook : lookupBlock s'.blocks s.nextId = some blk := by
    rw [hblocks]
    unfold lookupBlock
    rw [if_pos rfl]
  have hupd : updateBlock s'.blocks s.nextId ((TryBump blk size araised).2)
      = (s.nextId, (TryBump blk size araised).2) :: s.blocks := by
    rw [hblocks]
    unfold updateBlock
    rw [if_pos rfl, updateBlock_not_mem _ hnotmem]
  have hA : allocRefillPath opts s size araised =
      { ptr := some (((TryBump blk size araised).2).cur - size),
        s := { s' with blocks := (s.nextId, (TryBump blk size araised).2) :: s.blocks },
        lane := some s.nextId } := by
    simp only [allocRefillPath, heq, hlook, hupd]
  rw [hA]
  refine ⟨(TryBump blk size araised).2, rfl, ?_, ⟨?_, ?_, ?_⟩, ?_, ?_, ?_, ?_⟩
  · simp [lookupBlock]
  · simp only [keysOf, List.map_cons, List.nodup_cons]
    exact ⟨by simpa [keysOf] using hnotmem, hwf.nodup⟩
  · intro p hp
    simp only at hp ⊢
    rw [hnid]
    rcases List.mem_cons.mp hp with h1 | h1
    · rw [h1]
      omega
    · have := hwf.fresh p h1
      omega
  · intro p hp
    simp only at hp
    rcases List.mem_cons.mp hp with h1 | h1
    · rw [h1]
      exact tryBump_wfblock blk size araised ha hwfb
    · exact hwf.ranges p h1
  · simp only [dtorCount, List.map_cons, List.sum_cons, tryBump_dtors, hdt,
      List.length_nil, Nat.zero_add]
  · exact hflog
  · exact hnid
  · intro hm
    have hcur := tryBump_cur_of_true blk size araised ?_
    · refine ⟨(TryBump blk size araised).2.cur - size, rfl, ?_⟩
      rw [hcur]
      have h1 := le_alignUp blk.cur araised ha
      have h2 := hwfb.1
      have h3 := hwfb.2.1
      omega
    · rw [tryBump_pos blk size araised (hfit hm)]

theorem allocate_stale (opts : ArenaOptions) (s : ArenaState) (id size alignment : Nat)
    (h : lookupBlock s.blocks id = none) :
    Allocate opts s (some id) size alignment
      = allocRefillPath opts s size (effectiveAlign opts alignment) := by
  simp only [Allocate, h]

theorem allocate_cached (opts : ArenaOptions) (s : ArenaState) (id size alignment : Nat)
    (b : ArenaBlock) (h : lookupBlock s.blocks id = some b)
    (hb : (TryBump b size (effectiveAlign opts alignment)).1 = true) :
    Allocate opts s (some id) size alignment
      = { ptr := some (((TryBump b size (effectiveAlign opts alignment)).2).cur - size),
          s := { s with blocks := updateBlock s.blocks id ((TryBump b size (effectiveAlign opts alignment)).2) },
          lane := some id } := by
  simp only [Allocate, h, hb, if_true]

theorem allocate_nobump (opts : ArenaOptions) (s : ArenaState) (id size alignment : Nat)
    (b : ArenaBlock) (h : lookupBlock s.blocks id = some b)
    (hb : (TryBump b size (effectiveAlign opts alignment)).1 = false) :
    Allocate opts s (some id) size alignment
      = allocRefillPath opts s size (effectiveAlign opts alignment) := by
  simp only [Allocate, h, hb, Bool.false_eq_true, if_false]

theorem allocate_spec (opts : ArenaOptions) (s : ArenaState) (lane : Option Nat)
    (size alignment : Nat) (hva : validAlign opts.alignment = true) (hwf : WF s) :
    ∃ id b,
      (Allocate opts s lane size alignment).lane = some id
      ∧ lookupBlock (Allocate opts s lane size alignment).s.blocks id = some b
      ∧ WF (Allocate opts s lane size alignment).s
      ∧ dtorCount (Allocate opts s lane size alignment).s = dtorCount s
      ∧ (Allocate opts s lane size alignment).s.firedLog = s.firedLog
      ∧ s.nextId ≤ (Allocate opts s lane size alignment).s.nextId
      ∧ (size + effectiveAlign opts alignment + sizeofArenaBlock ≤ opts.max_block_bytes →
          ∃ p, (Allocate opts s lane size alignment).ptr = some p ∧ 0 < p) := by
  have ha : 0 < effectiveAlign opts alignment := effectiveAlign_pos opts alignment hva
  cases lane with
  | none =>
      obtain ⟨b, h1, h2, h3, h4, h5, h6, h7⟩ :=
        allocRefillPath_spec opts s size (effectiveAlign opts alignment) hva ha hwf
      have h6' : (Allocate opts s none size alignment).s.nextId = s.nextId + 1 := h6
      exact ⟨s.nextId, b, h1, h2, h3, h4, h5, by omega, h7⟩
  | some id =>
      cases hlb : lookupBlock s.blocks id with
      | none =>
          rw [allocate_stale opts s id size alignment hlb]
          obtain ⟨b, h1, h2, h3, h4, h5, h6, h7⟩ :=
            allocRefillPath_spec opts s size (effectiveAlign opts alignment) hva ha hwf
          exact ⟨s.nextId, b, h1, h2, h3, h4, h5, by omega, h7⟩
      | some b =>
          by_cases hbmp : (TryBump b size (effectiveAlign opts alignment)).1 = true
          · rw [allocate_cached opts s id size alignment b hlb hbmp]
            have hmem : (id, b) ∈ s.blocks := lookupBlock_mem hlb
            have hidlt : id < s.nextId := hwf.fresh (id, b) hmem
            have hwfb : WFblock b := hwf.ranges (id, b) hmem
            refine ⟨id, (TryBump b size (effectiveAlign opts alignment)).2, rfl,
              lookupBlock_updateBlock_self _ hlb, ⟨?_, ?_, ?_⟩, ?_, rfl, Nat.le_refl _, ?_⟩
            · show (keysOf (updateBlock s.blocks id
                ((TryBump b size (effectiveAlign opts alignment)).2))).Nodup
              rw [keysOf_updateBlock]
              exact hwf.nodup
            · intro p hp
              rcases mem_updateBlock hp with h1 | h1
              · exact hwf.fresh p h1
              · rw [h1]
                exact hidlt
            · intro p hp
              rcases mem_updateBlock hp with h1 | h1
              · exact hwf.ranges p h1
              · rw [h1]
                exact tryBump_wfblock b size (effectiveAlign opts alignment) ha hwfb
            · have hlen : ((TryBump b size (effectiveAlign opts alignment)).2).dtors.length
                  = b.dtors.length := by rw [tryBump_dtors]
              exact congrArg List.sum (dtorLens_updateBlock hwf.nodup hlb hlen)
            · intro _
              refine ⟨(TryBump b size (effectiveAlign opts alignment)).2.cur - size, rfl, ?_⟩
              rw [tryBump_cur_of_true b size (effectiveAlign opts alignment) hbmp]
              have h1 := le_alignUp b.cur (effectiveAlign opts alignment) ha
              have h2 := hwfb.1
              have h3 := hwfb.2.1
              omega
          · rw [allocate_nobump opts s id size alignment b hlb (Bool.eq_false_iff.mpr hbmp)]
            obtain ⟨b', h1, h2, h3, h4, h5, h6, h7⟩ :=
              allocRefillPath_spec opts s size (effectiveAlign opts alignment) hva ha hwf
            exact ⟨s.nextId, b', h1, h2, h3, h4, h5, by omega, h7⟩

theorem ownLaneInit_spec (opts : ArenaOptions) (s : ArenaState) (lane : Option Nat)
    (hva : validAlign opts.alignment = true) (hwf : WF s) :
    WF (ownLaneInit opts s lane).2
    ∧ dtorCount (ownLaneInit opts s lane).2 = dtorCount s
    ∧ (ownLaneInit opts s lane).2.firedLog = s.firedLog := by
  cases lane with
  | some id => exact ⟨hwf, rfl, rfl⟩
  | none =>
      obtain ⟨blk, s', heq, hblocks, hnid, hflog, _heps, hdt, hwfb, _⟩ :=
        refillLane_spec opts s sizeofDtorNode alignofDtorNode hva
          (by norm_num [alignofDtorNode]) hwf
      have h2 : (ownLaneInit opts s none).2 = s' := by
        simp only [ownLaneInit, heq]
      rw [h2]
      refine ⟨⟨?_, ?_, ?_⟩, ?_, hflog⟩
      · rw [hblocks]
        simp only [keysOf, List.map_cons, List.nodup_cons]
        exact ⟨by simpa [keysOf] using nextId_not_key hwf, hwf.nodup⟩
      · intro p hp
        rw [hblocks] at hp
        rw [hnid]
        rcases List.mem_cons.mp hp with h1 | h1
        · rw [h1]
          omega
        · have := hwf.fresh p h1
          omega
      · intro p hp
        rw [hblocks] at hp
        rcases List.mem_cons.mp hp with h1 | h1
        · rw [h1]
          exact hwfb
        · exact hwf.ranges p h1
      · simp only [dtorCount, hblocks, List.map_cons, List.sum_cons, hdt,
          List.length_nil, Nat.zero_add]

theorem own_spec (opts : ArenaOptions) (s : ArenaState) (lane : Option Nat) (ptr deleter : Nat)
    (hva : validAlign opts.alignment = true) (hwf : WF s) (hp : ptr ≠ 0) (hd : deleter ≠ 0) :
    WF (Own opts s lane ptr deleter).1
    ∧ dtorCount (Own opts s lane ptr deleter).1 = dtorCount s + 1
    ∧ (Own opts s lane ptr deleter).1.firedLog = s.firedLog := by
  have hne : ¬ (ptr = 0 ∨ deleter = 0) := by
    push_neg
    exact ⟨hp, hd⟩
  have hOwn : Own opts s lane ptr deleter
      = ownRegister (Allocate opts (ownLaneInit opts s lane).2 (ownLaneInit opts s lane).1
            sizeofDtorNode alignofDtorNode).s
          (Allocate opts (ownLaneInit opts s lane).2 (ownLaneInit opts s lane).1
            sizeofDtorNode alignofDtorNode).lane ptr deleter := by
    unfold Own
    rw [if_neg hne]
  rw [hOwn]
  obtain ⟨hwfI, hcntI, hlogI⟩ := ownLaneInit_spec opts s lane hva hwf
  obtain ⟨id, b, hlane, hlook, hwfA, hcntA, hlogA, _, _⟩ :=
    allocate_spec opts (ownLaneInit opts s lane).2 (ownLaneInit opts s lane).1
      sizeofDtorNode alignofDtorNode hva hwfI
  rw [hlane]
  simp only [ownRegister, hlook]
  refine ⟨⟨?_, ?_, ?_⟩, ?_, ?_⟩
  · show (keysOf (updateBlock _ id _)).Nodup
    rw [keysOf_updateBlock]
    exact hwfA.nodup
  · intro p hpm
    rcases mem_updateBlock hpm with h1 | h1
    · exact hwfA.fresh p h1
    · rw [h1]
      exact hwfA.fresh (id, b) (lookupBlock_mem hlook)
  · intro p hpm
    rcases mem_updateBlock hpm with h1 | h1
    · exact hwfA.ranges p h1
    · rw [h1]
      exact hwfA.ranges (id, b) (lookupBlock_mem hlook)
  · exact (dtorLens_updateBlock_prepend ⟨deleter, ptr⟩ hwfA.nodup hlook).trans
      (congrArg (· + 1) (hcntA.trans hcntI))
  · exact hlogA.trans hlogI

theorem create_spec (opts : ArenaOptions) (s : ArenaState) (lane : Option Nat)
    (sizeofT alignofT dtorFn : Nat)
    (hva : validAlign opts.alignment = true) (hwf : WF s) (hfn : dtorFn ≠ 0)
    (hfit : sizeofT + effectiveAlign opts alignofT + sizeofArenaBlock ≤ opts.max_block_bytes) :
    WF (Create opts s lane sizeofT alignofT true dtorFn).s
    ∧ dtorCount (Create opts s lane sizeofT alignofT true dtorFn).s = dtorCount s + 1
    ∧ (Create opts s lane sizeofT alignofT true dtorFn).s.firedLog = s.firedLog := by
  obtain ⟨id, b, hlane, hlook, hwfA, hcntA, hlogA, _, hptr⟩ :=
    allocate_spec opts s lane sizeofT alignofT hva hwf
  obtain ⟨p, hp, hppos⟩ := hptr hfit
  have hC : Create opts s lane sizeofT alignofT true dtorFn
      = { ptr := some p,
          s := (Own opts (Allocate opts s lane sizeofT alignofT).s
                  (Allocate opts s lane sizeofT alignofT).lane p dtorFn).1,
          lane := (Own opts (Allocate opts s lane sizeofT alignofT).s
                  (Allocate opts s lane sizeofT alignofT).lane p dtorFn).2 } := by
    simp only [Create, hp, if_true]
  rw [hC]
  obtain ⟨hwfO, hcntO, hlogO⟩ := own_spec opts (Allocate opts s lane sizeofT alignofT).s
    (Allocate opts s lane sizeofT alignofT).lane p dtorFn hva hwfA (by omega) hfn
  exact ⟨hwfO, by rw [hcntO, hcntA], hlogO.trans hlogA⟩

/-- K successive Arena::Create calls for one non trivially destructible
type, each registering its destructor, threading the arena state and
the thread lane. -/
def createMany (opts : ArenaOptions) (sizeofT alignofT dtorFn : Nat) :
    Nat → ArenaState × Option Nat → ArenaState × Option Nat
  | 0, sl => sl
  | Nat.succ k, sl =>
      createMany opts sizeofT alignofT dtorFn k
        ((Create opts sl.1 sl.2 sizeofT alignofT true dtorFn).s,
         (Create opts sl.1 sl.2 sizeofT alignofT true dtorFn).lane)

theorem createMany_spec (opts : ArenaOptions) (sizeofT alignofT dtorFn : Nat) (K : Nat)
    (s : ArenaState) (lane : Option Nat)
    (hva : validAlign opts.alignment = true) (hfn : dtorFn ≠ 0)
    (hfit : sizeofT + effectiveAlign opts alignofT + sizeofArenaBlock ≤ opts.max_block_bytes)
    (hwf : WF s) :
    WF (createMany opts sizeofT alignofT dtorFn K (s, lane)).1
    ∧ dtorCount (createMany opts sizeofT alignofT dtorFn K (s, lane)).1 = dtorCount s + K
    ∧ (createMany opts sizeofT alignofT dtorFn K (s, lane)).1.firedLog = s.firedLog := by
  induction K generalizing s lane with
  | zero => exact ⟨hwf, by simp [createMany], by simp [createMany]⟩
  | succ k ih =>
      obtain ⟨hwfC, hcntC, hlogC⟩ :=
        create_spec opts s lane sizeofT alignofT dtorFn hva hwf hfn hfit
      have hstep : createMany opts sizeofT alignofT dtorFn (k + 1) (s, lane)
          = createMany opts sizeofT alignofT dtorFn k
              ((Create opts s lane sizeofT alignofT true dtorFn).s,
               (Create opts s lane sizeofT alignofT true dtorFn).lane) := rfl
      rw [hstep]
      obtain ⟨h1, h2, h3⟩ := ih _ _ hwfC
      refine ⟨h1, ?_, h3.trans hlogC⟩
      rw [h2, hcntC]
      omega

theorem reset_firedLog (s : ArenaState) :
    (Reset s).firedLog = s.firedLog ++ (s.blocks.map (fun p => p.2.dtors)).flatten := rfl

theorem length_flatten_dtors (s : ArenaState) :
    ((s.blocks.map (fun p => p.2.dtors)).flatten).length = dtorCount s := by
  rw [List.length_flatten]
  simp only [dtorCount, List.map_map]
  rfl

theorem reset_blocks (s : ArenaState) :
    (Reset s).blocks
      = s.blocks.map (fun p => (p.1, { p.2 with cur := p.2.begin_, dtors := [] })) := by
  simp only [Reset, RunAllDtors, List.map_map]
  rfl

theorem purge_freedLog (s : ArenaState) :
    (Purge s).freedLog = s.freedLog ++ s.blocks.map (fun p =>
      (p.2.begin_ - sizeofArenaBlock, p.2.end_ - p.2.begin_ + sizeofArenaBlock)) := by
  simp only [Purge, RunAllDtors, List.map_map]
  rfl

theorem WF_reset {s : ArenaState} (hwf : WF s) : WF (Reset s) := by
  refine ⟨?_, ?_, ?_⟩
  · rw [reset_blocks]
    have : keysOf (s.blocks.map (fun p => (p.1, { p.2 with cur := p.2.begin_, dtors := [] })))
        = keysOf s.blocks := by
      simp only [keysOf, List.map_map]
      rfl
    rw [this]
    exact hwf.nodup
  · intro p hp
    rw [reset_blocks] at hp
    rcases List.mem_map.mp hp with ⟨q, hq, hqe⟩
    have := hwf.fresh q hq
    rw [← hqe]
    exact this
  · intro p hp
    rw [reset_blocks] at hp
    rcases List.mem_map.mp hp with ⟨q, hq, hqe⟩
    have hr := hwf.ranges q hq
    rw [← hqe]
    exact ⟨hr.1, Nat.le_refl _, Nat.le_trans hr.2.1 hr.2.2⟩

theorem WF_purge {s : ArenaState} : WF (Purge s) := by
  refine ⟨?_, ?_, ?_⟩
  · exact List.nodup_nil
  · intro p hp
    cases hp
  · intro p hp
    cases hp

theorem lookupArena_mem {arenas : List (Nat × ArenaState)} {id : Nat} {a : ArenaState}
    (h : lookupArena arenas id = some a) : (id, a) ∈ arenas := by
  induction arenas with
  | nil => simp [lookupArena] at h
  | cons p rest ih =>
      unfold lookupArena at h
      by_cases hp : p.1 = id
      · rw [if_pos hp] at h
        have hb : a = p.2 := by injection h with h2; exact h2.symm
        subst hb
        rw [← hp]
        exact List.mem_cons_self _ _
      · rw [if_neg hp] at h
        exact List.mem_cons_of_mem _ (ih h)

theorem mem_updateArena {arenas : List (Nat × ArenaState)} {id : Nat} {a' : ArenaState}
    {q : Nat × ArenaState} (h : q ∈ updateArena arenas id a') :
    q ∈ arenas ∨ q = (id, a') := by
  induction arenas with
  | nil => simp [updateArena] at h
  | cons p rest ih =>
      unfold updateArena at h
      rcases List.mem_cons.mp h with h1 | h1
      · by_cases hp : p.1 = id
        · rw [if_pos hp] at h1
          right
          rw [h1, hp]
        · rw [if_neg hp] at h1
          left
          exact List.mem_cons.mpr (Or.inl h1)
      · rcases ih h1 with h2 | h2
        · exact Or.inl (List.mem_cons_of_mem _ h2)
        · exact Or.inr h2

theorem lookupArena_update_self {arenas : List (Nat × ArenaState)} {id : Nat}
    {a : ArenaState} (a' : ArenaState) (h : lookupArena arenas id = some a) :
    lookupArena (updateArena arenas id a') id = some a' := by
  induction arenas with
  | nil => simp [lookupArena] at h
  | cons p rest ih =>
      unfold lookupArena at h
      unfold updateArena
      by_cases hp : p.1 = id
      · simp [lookupArena, hp]
      · rw [if_neg hp] at h ⊢
        unfold lookupArena
        rw [if_neg hp]
        exact ih h

theorem lookupArena_cons (p : Nat × ArenaState) (rest : List (Nat × ArenaState)) (id : Nat) :
    lookupArena (p :: rest) id = if p.1 = id then some p.2 else lookupArena rest id := rfl

theorem lookupArena_update_ne {arenas : List (Nat × ArenaState)} {id a : Nat}
    (a' : ArenaState) (h : a ≠ id) :
    lookupArena (updateArena arenas id a') a = lookupArena arenas a := by
  induction arenas with
  | nil => rfl
  | cons p rest ih =>
      have hup : updateArena (p :: rest) id a'
          = (if p.1 = id then (p.1, a') else p) :: updateArena rest id a' := rfl
      rw [hup, lookupArena_cons, lookupArena_cons]
      have hfst : (if p.1 = id then (p.1, a') else p).1 = p.1 := by
        split <;> rfl
      rw [hfst]
      by_cases hpa : p.1 = a
      · rw [if_pos hpa, if_pos hpa]
        have hpid : ¬ p.1 = id := fun hc => h (hpa ▸ hc)
        rw [if_neg hpid]
      · rw [if_neg hpa, if_neg hpa]
        exact ih

/-- Every arena of the world is well formed. -/
def WorldWF (w : World) : Prop := ∀ q ∈ w.arenas, WF q.2

/-- The thread local slot invariant: a non null cached block belongs to
the arena the slot owner field names, and its identity was created by
that arena (it is below that arena id supply). -/
def LaneInv (w : World) : Prop :=
  ∀ a b, w.tls.block = some (a, b) →
    w.tls.owner = some a
    ∧ ∀ ast, lookupArena w.arenas a = some ast → b < ast.nextId

theorem wallocate_absent (opts : ArenaOptions) (w : World) (aid size align : Nat)
    (h : lookupArena w.arenas aid = none) :
    WAllocate opts w aid size align = w := by
  simp only [WAllocate, h]

theorem wallocate_present (opts : ArenaOptions) (w : World) (aid size align : Nat)
    (ast : ArenaState) (h : lookupArena w.arenas aid = some ast) :
    WAllocate opts w aid size align
      = { arenas := updateArena w.arenas aid
            (Allocate opts ast (laneView aid (GetLane aid w.tls).block) size align).s,
          tls := { owner := some aid,
                   block := (Allocate opts ast (laneView aid (GetLane aid w.tls).block)
                       size align).lane.map (fun bid => (aid, bid)) } } := by
  simp only [WAllocate, h]

theorem wreset_absent (w : World) (aid : Nat) (h : lookupArena w.arenas aid = none) :
    WReset w aid = w := by
  simp only [WReset, h]

theorem wreset_present (w : World) (aid : Nat) (ast : ArenaState)
    (h : lookupArena w.arenas aid = some ast) :
    WReset w aid = { w with arenas := updateArena w.arenas aid (Reset ast) } := by
  simp only [WReset, h]

theorem wpurge_absent (w : World) (aid : Nat) (h : lookupArena w.arenas aid = none) :
    WPurge w aid = w := by
  simp only [WPurge, h]

theorem wpurge_present (w : World) (aid : Nat) (ast : ArenaState)
    (h : lookupArena w.arenas aid = some ast) :
    WPurge w aid = { w with arenas := updateArena w.arenas aid (Purge ast) } := by
  simp only [WPurge, h]

theorem wStep_preserves (opts : ArenaOptions) (hva : validAlign opts.alignment = true)
    (w : World) (op : WOp) (h : WorldWF w ∧ LaneInv w) :
    WorldWF (wStep opts w op) ∧ LaneInv (wStep opts w op) := by
  obtain ⟨hWF, hInv⟩ := h
  cases op with
  | alloc aid size align =>
      cases hla : lookupArena w.arenas aid with
      | none =>
          rw [show wStep opts w (WOp.alloc aid size align)
              = WAllocate opts w aid size align from rfl,
            wallocate_absent opts w aid size align hla]
          exact ⟨hWF, hInv⟩
      | some ast =>
          rw [show wStep opts w (WOp.alloc aid size align)
              = WAllocate opts w aid size align from rfl,
            wallocate_present opts w aid size align ast hla]
          have hwfast : WF ast := hWF (aid, ast) (lookupArena_mem hla)
          obtain ⟨bid, b, hlane, hlook, hwfA, _, _, _, _⟩ :=
            allocate_spec opts ast (laneView aid (GetLane aid w.tls).block) size align
              hva hwfast
          constructor
          · intro q hq
            rcases mem_updateArena hq with h1 | h1
            · exact hWF q h1
            · rw [h1]
              exact hwfA
          · intro a bb hb
            rw [hlane] at hb
            have hb2 : (aid, bid) = (a, bb) := by
              simpa using hb
            have haid : aid = a := congrArg Prod.fst hb2
            have hbb : bid = bb := congrArg Prod.snd hb2
            subst haid
            subst hbb
            refine ⟨rfl, ?_⟩
            intro ast' hast'
            rw [lookupArena_update_self _ hla] at hast'
            have hast2 : (Allocate opts ast (laneView aid (GetLane aid w.tls).block)
                size align).s = ast' := by injection hast'
            rw [← hast2]
            exact hwfA.fresh (bid, b) (lookupBlock_mem hlook)
  | reset aid =>
      cases hla : lookupArena w.arenas aid with
      | none =>
          rw [show wStep opts w (WOp.reset aid) = WReset w aid from rfl,
            wreset_absent w aid hla]
          exact ⟨hWF, hInv⟩
      | some ast =>
          rw [show wStep opts w (WOp.reset aid) = WReset w aid from rfl,
            wreset_present w aid ast hla]
          constructor
          · intro q hq
            rcases mem_updateArena hq with h1 | h1
            · exact hWF q h1
            · rw [h1]
              exact WF_reset (hWF (aid, ast) (lookupArena_mem hla))
          · intro a bb hb
            obtain ⟨ho, hbound⟩ := hInv a bb hb
            refine ⟨ho, ?_⟩
            intro ast' hast'
            by_cases haa : a = aid
            · subst haa
              rw [lookupArena_update_self _ hla] at hast'
              have hast2 : Reset ast = ast' := by injection hast' with h2
              rw [← hast2]
              exact hbound ast hla
            · rw [lookupArena_update_ne _ haa] at hast'
              exact hbound ast' hast'
  | purge aid =>
      cases hla : lookupArena w.arenas aid with
      | none =>
          rw [show wStep opts w (WOp.purge aid) = WPurge w aid from rfl,
            wpurge_absent w aid hla]
          exact ⟨hWF, hInv⟩
      | some ast =>
          rw [show wStep opts w (WOp.purge aid) = WPurge w aid from rfl,
            wpurge_present w aid ast hla]
          constructor
          · intro q hq
            rcases mem_updateArena hq with h1 | h1
            · exact hWF q h1
            · rw [h1]
              exact WF_purge
          · intro a bb hb
            obtain ⟨ho, hbound⟩ := hInv a bb hb
            refine ⟨ho, ?_⟩
            intro ast' hast'
            by_cases haa : a = aid
            · subst haa
              rw [lookupArena_update_self _ hla] at hast'
              have hast2 : Purge ast = ast' := by injection hast' with h2
              rw [← hast2]
              exact hbound ast hla
            · rw [lookupArena_update_ne _ haa] at hast'
              exact hbound ast' hast'

theorem wRun_preserves (opts : ArenaOptions) (hva : validAlign opts.alignment = true)
    (w : World) (ops : List WOp) (h : WorldWF w ∧ LaneInv w) :
    WorldWF (wRun opts w ops) ∧ LaneInv (wRun opts w ops) := by
  induction ops generalizing w with
  | nil => exact h
  | cons op rest ih => exact ih _ (wStep_preserves opts hva w op h)

theorem initWorld_inv (aids : List Nat) (base : Nat) :
    WorldWF (initWorld aids base) ∧ LaneInv (initWorld aids base) := by
  constructor
  · intro q hq
    simp only [initWorld] at hq
    rcases List.mem_map.mp hq with ⟨a, _, hqe⟩
    rw [← hqe]
    exact ⟨List.nodup_nil, (by intro p hp; cases hp), (by intro p hp; cases hp)⟩
  · intro a b hb
    simp [initWorld] at hb

/-- C1: the claim states that every non null pointer returned by
Arena::Allocate is suitably aligned and that its byte range lies inside
one ArenaBlock of the arena list, including after a refill. The code
violates the claim: with default options a 2 MiB request refills,
NextBlockSize_ clamps the new block to max_block_bytes so the block is
too small, the result of the final TryBump_ is discarded, and Allocate
returns the non null pointer 14680112 whose range lies outside the one
block of the arena, which spans 16777256 to 17825792. This theorem
evaluates the embedded Allocate at that failing input. -/
theorem c1_allocate_oversized_escapes_blocks :
    (Allocate defaultOptions (initArena 16777216) none (2 * 1024 * 1024) 16).ptr
        = some 14680112
    ∧ (Allocate defaultOptions (initArena 16777216) none (2 * 1024 * 1024) 16).s.blocks
        = [(0, { begin_ := 16777256, cur := 16777264, end_ := 17825792, dtors := [] })]
    ∧ ∀ q ∈ (Allocate defaultOptions (initArena 16777216) none (2 * 1024 * 1024) 16).s.blocks,
        ¬ (q.2.begin_ ≤ 14680112 ∧ 14680112 + 2 * 1024 * 1024 ≤ q.2.end_) := by
  decide

/-- C2: the claim states that the size of a new block is the maximum of
initial_block_bytes and need plus alignment plus header, clamped to
max_block_bytes, except that a need larger than max_block_bytes is
still fitted. The code has no such exception: NextBlockSize_ clamps
unconditionally, so for a 2 MiB need under default options the chosen
size is 1 MiB and the resulting block body cannot hold the need. -/
theorem c2_next_block_size_hard_clamp :
    NextBlockSize defaultOptions (2 * 1024 * 1024) 16 = 1024 * 1024
    ∧ NextBlockSize defaultOptions (2 * 1024 * 1024) 16 - sizeofArenaBlock
        < 2 * 1024 * 1024 := by
  decide

/-- Arena state used for the C3 run: one block holding one registered
cleanup, and one active epoch held by another thread. -/
def c3State : ArenaState :=
  { blocks := [(0, { begin_ := 4136, cur := 4200, end_ := 8192, dtors := [⟨7, 4160⟩] })],
    nextId := 1, totalBytes := 4096, epoch := 1, upNext := 8192,
    freedLog := [], firedLog := [] }

/-- C3: the claim states that a timed out ArenaResetSafely returns
false, mutates nothing, clears the FREEZE flag and returns control to
the caller. With the epoch debug check compiled out the code does
exactly that, as the second conjunct shows on a state with one active
epoch and an expired deadline: the returned state equals the starting
state, FREEZE cleared. But when NAVARY_ARENA_EPOCH_DEBUG is 1, which
is every build without NDEBUG, the same run calls std::abort instead
of returning, as the first conjunct shows, contradicting the claim,
the comment at the end of the function, and the timeout test in
arena_test.cc. -/
theorem c3_reset_safely_timeout_divergence :
    ArenaResetSafely true defaultOptions (fun _ => true) 1 c3State
        = ResetOutcome.aborted c3State
    ∧ ArenaResetSafely false defaultOptions (fun _ => true) 1 c3State
        = ResetOutcome.ok false c3State := by
  decide

/-- C4: the claim states that MakeSpan registers exactly one cleanup
holding a stored pair of pointer and count. The code registers two:
it first allocates the Sweep header and hands it to Own, then builds
the SweepPtr replacement and hands that to Own as well, without
removing the first registration. On a fresh arena with four non
trivially destructible elements the cleanup count is 2, and the
registered callback identities are the SweepPtr runner followed by the
leftover Sweep runner. -/
theorem c4_make_span_registers_two_cleanups :
    dtorCount (MakeSpan defaultOptions (initArena 4096) none 8 8 4 true 11 22).s = 2
    ∧ ((MakeSpan defaultOptions (initArena 4096) none 8 8 4 true 11 22).s.blocks.map
        (fun q => q.2.dtors.map (fun d => d.fn))).flatten = [22, 11] := by
  decide

/-- C5: constructing K non trivially destructible objects through
Arena::Create, each registering its destructor, and then performing one
Reset with no interference invokes exactly K cleanup callbacks, none of
them before the Reset. The hypotheses ask for a valid configured
alignment, an object that fits a fresh block, a non null destructor
callback, and a well formed starting state with no pending cleanups
and no past invocations. -/
theorem c5_cleanup_completeness (opts : ArenaOptions) (sizeofT alignofT dtorFn K : Nat)
    (s : ArenaState) (lane : Option Nat)
    (hva : validAlign opts.alignment = true)
    (hfit : sizeofT + effectiveAlign opts alignofT + sizeofArenaBlock
        ≤ opts.max_block_bytes)
    (hfn : dtorFn ≠ 0) (hwf : WF s)
    (hcnt : dtorCount s = 0) (hlog : s.firedLog = []) :
    (createMany opts sizeofT alignofT dtorFn K (s, lane)).1.firedLog = []
    ∧ (Reset (createMany opts sizeofT alignofT dtorFn K (s, lane)).1).firedLog.length = K := by
  obtain ⟨_h1, h2, h3⟩ := createMany_spec opts sizeofT alignofT dtorFn K s lane hva hfn hfit hwf
  refine ⟨h3.trans hlog, ?_⟩
  rw [reset_firedLog, List.length_append, h3.trans hlog, length_flatten_dtors, h2, hcnt]
  simp

/-- Run of the C5 theorem at a concrete input: two creations of an
8 byte object on a fresh arena fire exactly two cleanups at Reset. -/
theorem c5_cleanup_completeness_witness :
    (Reset (createMany defaultOptions 8 8 3 2 (initArena 4096, none)).1).firedLog.length
      = 2 :=
  (c5_cleanup_completeness defaultOptions 8 8 3 2 (initArena 4096) none (by decide)
    (by decide) (by decide)
    ⟨List.nodup_nil, (by intro p hp; cases hp), (by intro p hp; cases hp)⟩ rfl rfl).2

/-- C6: transitions of the active_epochs_ word. EnterEpoch_ has no
effect while the FREEZE flag is observed set, and otherwise increments
the word by exactly one, which raises the count field by exactly one
while it is below kCountMask. LeaveEpoch_ always decrements, FREEZE
set or not, lowering the count field by exactly one and leaving the
FREEZE flag unchanged. Setting and clearing the FREEZE flag leaves the
count field unchanged, so the count changes only through single
increments and decrements. -/
theorem c6_epoch_word_transitions (w : Nat) (hw : w < 2 ^ 32) :
    (epochFrozen w = true → epochStep EpochOp.enter w = none)
    ∧ (epochFrozen w = false →
        epochStep EpochOp.enter w = some (w + 1)
        ∧ (epochCount w < kCountMask → epochCount (w + 1) = epochCount w + 1))
    ∧ (0 < epochCount w →
        epochStep EpochOp.leave w = some (w - 1)
        ∧ epochCount (w - 1) = epochCount w - 1
        ∧ epochFrozen (w - 1) = epochFrozen w)
    ∧ epochCount (setFreeze w) = epochCount w
    ∧ epochCount (clearFreeze w) = epochCount w := by
  have e31 : (2 : Nat) ^ 31 = 2147483648 := by norm_num
  have e32 : (2 : Nat) ^ 32 = 4294967296 := by norm_num
  rw [e32] at hw
  refine ⟨?_, ?_, ?_, ?_, ?_⟩
  · intro h
    simp [epochStep, h]
  · intro h
    have hlt : w < 2147483648 := by
      simp only [epochFrozen, decide_eq_false_iff_not, not_le, e31] at h
      exact h
    refine ⟨by simp [epochStep, h], ?_⟩
    intro hc
    simp only [epochCount, kCountMask, e31] at hc ⊢
    omega
  · intro hc
    simp only [epochCount, e31] at hc
    have hsub : sub1mod32 w = w - 1 := by
      simp only [sub1mod32, e32]
      omega
    refine ⟨by simp [epochStep, hsub], ?_, ?_⟩
    · simp only [epochCount, e31]
      omega
    · simp only [epochFrozen, e31]
      rw [decide_eq_decide]
      omega
  · simp only [epochCount, setFreeze, e31]
    split_ifs with hs
    · rfl
    · omega
  · simp only [clearFreeze, epochCount, e31]
    omega

/-- Run of the C6 theorem at the word 5: five active epochs, not
frozen. Leaving an epoch yields 4, entering one yields 6. -/
theorem c6_epoch_word_transitions_witness :
    epochStep EpochOp.leave 5 = some 4 ∧ epochStep EpochOp.enter 5 = some 6 :=
  ⟨((c6_epoch_word_transitions 5 (by norm_num)).2.2.1 (by decide)).1,
   ((c6_epoch_word_transitions 5 (by norm_num)).2.1 (by decide)).1⟩

/-- C7: frame effect of Reset and Purge on a state with no active
epochs. After Reset every block keeps its id, begin and end, its
cursor equals its begin and its cleanup list is empty, and the reserved
byte counter is unchanged. After Purge the block list is empty, the
reserved byte counter is zero, and the raw range of every block, one
header before begin and sized including the header, has been handed to
the upstream deallocate hook, in list order. -/
theorem c7_reset_purge_frame (s : ArenaState) (h : epochCount s.epoch = 0) :
    (Reset s).blocks
        = s.blocks.map (fun p => (p.1, { p.2 with cur := p.2.begin_, dtors := [] }))
    ∧ (Reset s).totalBytes = s.totalBytes
    ∧ (Purge s).blocks = []
    ∧ (Purge s).totalBytes = 0
    ∧ (Purge s).freedLog = s.freedLog ++ s.blocks.map (fun p =>
        (p.2.begin_ - sizeofArenaBlock, p.2.end_ - p.2.begin_ + sizeofArenaBlock)) := by
  exact ⟨reset_blocks s, rfl, rfl, rfl, purge_freedLog s⟩

/-- Arena state used for the C7 run: one kilobyte block with a
registered cleanup and no active epochs. -/
def c7Demo : ArenaState :=
  { blocks := [(0, { begin_ := 140, cur := 200, end_ := 1140, dtors := [⟨5, 160⟩] })],
    nextId := 1, totalBytes := 1040, epoch := 0, upNext := 1240,
    freedLog := [], firedLog := [] }

/-- Run of the C7 theorem at a concrete input: purging the one block
arena returns its raw range, header included, to the upstream. -/
theorem c7_reset_purge_frame_witness :
    (Purge c7Demo).freedLog = [(100, 1040)] :=
  ((c7_reset_purge_frame c7Demo (by decide)).2.2.2.2).trans (by decide)

/-- C8: lane and owner isolation. First, GetLane_ always hands back a
slot owned by the arena in use, and whenever the stored owner differs
from that arena the cached block is cleared before use. Second, in
every state reachable by any interleaving of allocations, resets and
purges across any family of arenas on one thread, a non null cached
block belongs to the arena the owner field names: its identity pair
carries that arena, and the block id was created by that arena id
supply. A thread alternating between two arenas therefore never bumps
a block of the wrong arena. -/
theorem c8_lane_owner_isolation (opts : ArenaOptions) (aids : List Nat) (base : Nat)
    (ops : List WOp) (hva : validAlign opts.alignment = true) :
    (∀ self tls, (GetLane self tls).owner = some self
        ∧ (tls.owner ≠ some self → (GetLane self tls).block = none))
    ∧ ∀ a b, (wRun opts (initWorld aids base) ops).tls.block = some (a, b) →
        (wRun opts (initWorld aids base) ops).tls.owner = some a
        ∧ ∀ ast, lookupArena (wRun opts (initWorld aids base) ops).arenas a = some ast →
            b < ast.nextId := by
  constructor
  · intro self tls
    constructor
    · unfold GetLane
      split_ifs with h
      · exact h
      · rfl
    · intro hne
      unfold GetLane
      rw [if_neg hne]
  · exact (wRun_preserves opts hva (initWorld aids base) ops (initWorld_inv aids base)).2

/-- Run of the C8 theorem on a thread that allocates from arena 1 and
then from arena 2: the slot then names arena 2 as owner of its cached
block. -/
theorem c8_lane_owner_isolation_witness :
    (wRun defaultOptions (initWorld [1, 2] 4096)
        [WOp.alloc 1 8 8, WOp.alloc 2 8 8]).tls.owner = some 2 :=
  ((c8_lane_owner_isolation defaultOptions [1, 2] 4096 [WOp.alloc 1 8 8, WOp.alloc 2 8 8]
      (by decide)).2 2 0 (by decide)).1

/-- C9: when TryBump_ returns false it has written nothing: the block
keeps its cursor, bounds and cleanup list, and is equal to its prior
value; the function touches no other state, as its embedding acts on
the single block alone. -/
theorem c9_trybump_failure_frame (b : ArenaBlock) (bytes align : Nat)
    (h : (TryBump b bytes align).1 = false) :
    (TryBump b bytes align).2.cur = b.cur
    ∧ (TryBump b bytes align).2.begin_ = b.begin_
    ∧ (TryBump b bytes align).2.end_ = b.end_
    ∧ (TryBump b bytes align).2.dtors = b.dtors
    ∧ (TryBump b bytes align).2 = b := by
  by_cases hc : alignUp b.cur align + bytes ≤ b.end_
  · rw [tryBump_pos b bytes align hc] at h
    simp at h
  · rw [tryBump_neg b bytes align hc]
    exact ⟨rfl, rfl, rfl, rfl, rfl⟩

/-- Run of the C9 theorem on a 60 byte block that cannot take 100 more
bytes: the cursor is unchanged. -/
theorem c9_trybump_failure_frame_witness :
    (TryBump { begin_ := 100, cur := 150, end_ := 160, dtors := [] } 100 8).2.cur = 150 :=
  (c9_trybump_failure_frame { begin_ := 100, cur := 150, end_ := 160, dtors := [] } 100 8
    (by decide)).1

/-- C10: the spin phase of WaitForEpochZero loads the count before its
first deadline comparison, so whenever the very first load observes a
zero count the wait returns true, for every deadline, including one
already expired, provided spin_iters is at least one. -/
theorem c10_wait_zero_before_deadline (pol : ArenaWaitPolicy) (env : WaitEnv) (fuel : Nat)
    (hspin : 1 ≤ pol.spin_iters) (h0 : epochCount (env.reads 0) = 0) :
    WaitForEpochZero pol env fuel = true := by
  obtain ⟨k, hk⟩ : ∃ k, pol.spin_iters = k + 1 := ⟨pol.spin_iters - 1, by omega⟩
  unfold WaitForEpochZero
  rw [hk]
  simp [waitBoundedPhase, h0]

/-- Run of the C10 theorem with a single spin iteration, an expired
deadline at every clock check, and a zero count at the first load. -/
theorem c10_wait_zero_before_deadline_witness :
    WaitForEpochZero { spin_iters := 1, yield_iters := 0, sleep_ms := 1 }
      { reads := fun _ => 0, expired := fun _ => true } 0 = true :=
  c10_wait_zero_before_deadline _ _ 0 (by decide) (by decide)
